import Mathlib

/-!
Shallow embedding of the core tabular pipeline of
`stock_replenishment_report.py`: text normalization, header location,
column resolution, row extraction, numeric coercion, the replenishment
filter, and the CSV export decision.

Conventions of the embedding:
* a spreadsheet cell is `Option String`: `Option.none` stands for the
  Python value `None`, `Option.some s` for the string `s`;
* the two fatal error paths (header not found, missing column), which the
  Python code realizes by raising `ValueError` with a formatted message,
  are embedded as `Except String` with the same message text;
* Python `float` values produced by `safe_float` are embedded as exact
  scaled decimals `DecNum` (an integer mantissa together with a decimal
  scale), with `DecNum.toRat` giving the rational value; the modeled
  fragment of `float(...)` parsing covers optionally signed plain decimal
  literals (no exponent, no inf or nan, no underscores), which is the
  fragment the sheet data and the specification exercise;
* character-level helpers (lowercasing, stripping, whitespace collapsing)
  are written over `List Char` so that every definition reduces inside the
  kernel; they cover the ASCII whitespace and letter range that the
  Python code relies on.
-/

/-- Value of one spreadsheet cell: `none` models Python `None`,
`some s` a string cell. -/
abbrev Cell := Option String

/-- One sheet row, possibly ragged. -/
abbrev Row := List Cell

/-- The full grid of cell values. -/
abbrev Grid := List Row

/-- The empty-string cell, the default `get_cell` substitutes for a
missing index. -/
def emptyCell : Cell := some ("")

/-- Python truthiness test `not cell` for a cell value: `None` and the
empty string are falsy. -/
def cellFalsy : Cell → Bool
  | none => true
  | some s => s = ""

/-- ASCII whitespace test used for stripping and for the regex class
of whitespace characters. -/
def isWs (c : Char) : Bool := c.isWhitespace

/-- Python `str.strip()`: remove whitespace from both ends. -/
def stripChars (cs : List Char) : List Char :=
  ((cs.dropWhile isWs).reverse.dropWhile isWs).reverse

/-- Python `str.lower()` on the ASCII range. -/
def lowerChars (cs : List Char) : List Char := cs.map Char.toLower

/-- Replace every maximal run of whitespace by a single space, as the
substitution of the pattern of one-or-more whitespace with a space does;
the flag records whether the previous character belonged to a run. -/
def collapseWsAux : Bool → List Char → List Char
  | _, [] => []
  | prevWs, c :: cs =>
    if isWs c then
      if prevWs then collapseWsAux true cs
      else ' ' :: collapseWsAux true cs
    else c :: collapseWsAux false cs

/-- Embeds `normalize_text`: falsy input gives the empty string, otherwise
lowercase, strip, and collapse internal whitespace runs to single
spaces. -/
def normalize_text (text : Cell) : String :=
  match text with
  | none => ""
  | some s =>
    if s = "" then ""
    else String.mk (collapseWsAux false (stripChars (lowerChars s.data)))

/-- The `normalize_text` call on a plain string, as applied to the search
terms. -/
def normalize_term (s : String) : String := normalize_text (some s)

/-- Whether `needle` is a leading segment of `hay`. -/
def listStartsWith : List Char → List Char → Bool
  | [], _ => true
  | _ :: _, [] => false
  | a :: as, b :: bs => a == b && listStartsWith as bs

/-- Whether `needle` occurs contiguously inside `hay`, as the Python
substring test `needle in hay` does. -/
def subOccurs (needle : List Char) : List Char → Bool
  | [] => needle.isEmpty
  | c :: t => listStartsWith needle (c :: t) || subOccurs needle t

/-- Python substring containment `needle in hay` on strings. -/
def strContains (hay needle : String) : Bool := subOccurs needle.data hay.data

/-- The match test of `find_column_index` for one cell and one term:
the normalized cell equals the normalized term, or the normalized term
occurs inside the normalized cell. -/
def cellTermMatch (cell : Cell) (term : String) : Bool :=
  normalize_text cell == normalize_term term
    || strContains (normalize_text cell) (normalize_term term)

/-- Whether some search term matches the header cell; the terms are tried
in the listed order, as the inner loop of `find_column_index` does. -/
def cellMatches (search_terms : List String) (cell : Cell) : Bool :=
  search_terms.any (cellTermMatch cell)

/-- Embeds `find_column_index`: scan the header cells in index order and
return the first index whose cell matches one of the search terms. -/
def find_column_index (header_row : Row) (search_terms : List String) : Option Nat :=
  match header_row with
  | [] => none
  | cell :: rest =>
    if cellMatches search_terms cell then some 0
    else Option.map (fun i => i + 1) (find_column_index rest search_terms)

/-- Python `str(cell)` on a cell value: `None` prints as `None`. -/
def cellStr : Cell → String
  | none => "None"
  | some s => s

/-- Python `sep.join(items)`. -/
def pyJoin (sep : String) : List String → String
  | [] => ""
  | [x] => x
  | x :: y :: xs => x ++ sep ++ pyJoin sep (y :: xs)

/-- The concatenated, lowercased text of one row, as `find_header_row`
computes it before the marker tests. -/
def rowText (row : Row) : String :=
  String.mk (lowerChars (pyJoin (" ") (row.map cellStr)).data)

/-- The header predicate of `find_header_row`: the row is non-empty and
its lowercased joined text contains the marker `sno` together with `uid`
or `item name`. -/
def isHeaderRow (row : Row) : Bool :=
  !row.isEmpty
    && (strContains (rowText row) ("sno")
        && (strContains (rowText row) ("uid")
            || strContains (rowText row) ("item name")))

/-- A single-quote character, written via its code point. -/
def squote : String := String.singleton (Char.ofNat 39)

/-- The message of the `ValueError` raised when no header row is found. -/
def headerNotFoundMsg : String :=
  ("Could not find header row. Expected to find ") ++ squote ++ ("Sno") ++ squote
    ++ (" and ") ++ squote ++ ("UID") ++ squote ++ (" columns.")

/-- Scan loop of `find_header_row`, carrying the current row index. -/
def findHeaderRowAux : Nat → List Row → Except String (Nat × Row)
  | _, [] => Except.error headerNotFoundMsg
  | i, row :: rest =>
    if isHeaderRow row then Except.ok (i, row)
    else findHeaderRowAux (i + 1) rest

/-- Embeds `find_header_row`: scan at most `max_rows_to_check` rows from
the top and return the first header-looking row with its index, or the
not-found error. -/
def find_header_row (data : Grid) (max_rows_to_check : Nat) : Except String (Nat × Row) :=
  findHeaderRowAux 0 (data.take max_rows_to_check)

/-- The default bound of rows scanned for the header. -/
def default_max_rows_to_check : Nat := 10

/-- Search terms for the sequence-number column. -/
def sno_terms : List String := ["sno", "sno."]

/-- Search terms for the unique-id column. -/
def uid_terms : List String := ["uid"]

/-- Search terms for the bush column. -/
def bush_terms : List String := ["bush"]

/-- Search terms for the group column. -/
def group_terms : List String := ["group"]

/-- Search terms for the last-indent-order-raised column. -/
def last_io_raised_terms : List String :=
  ["last i. o. raised", "last i.o raised", "last io raised"]

/-- Search terms for the category column. -/
def category_terms : List String := ["category"]

/-- Search terms for the stock-location column. -/
def stock_location_terms : List String := ["stock location"]

/-- Search terms for the minimum-level column. -/
def min_lvl_terms : List String :=
  ["min lvl", "min. lvl", "min lv", "min. lv", "minimum level"]

/-- Search terms for the opening-balance column. -/
def opn_bal_terms : List String := ["opn. bal", "opn bal", "opening balance"]

/-- The catalog of the 9 logical columns with their search terms, in the
iteration order of the dictionary in `find_all_columns`. -/
def column_definitions : List (String × List String) :=
  [("sno", sno_terms), ("uid", uid_terms), ("bush", bush_terms),
   ("group", group_terms), ("last_io_raised", last_io_raised_terms),
   ("category", category_terms), ("stock_location", stock_location_terms),
   ("min_lvl", min_lvl_terms), ("opn_bal", opn_bal_terms)]

/-- Python `repr` of a cell as it appears inside `str(header_row)`;
cells of the modeled fragment contain no quote or backslash, so quoting
is plain single quotes. -/
def pyRepr (c : Cell) : String :=
  match c with
  | none => "None"
  | some s => squote ++ s ++ squote

/-- Python `str(...)` of a row, as interpolated into the missing-column
message. -/
def pyStrList (row : Row) : String :=
  ("[") ++ pyJoin (", ") (row.map pyRepr) ++ ("]")

/-- The message of the `ValueError` raised for an unresolved column. -/
def missingColumnMsg (col_name : String) (search_terms : List String) (header_row : Row) : String :=
  ("Required column ") ++ squote ++ col_name ++ squote
    ++ (" not found in header row.\nSearched for: ")
    ++ pyJoin (", ") search_terms
    ++ ("\nHeader row: ") ++ pyStrList header_row

/-- Resolved physical indices of the 9 logical columns. -/
structure ColumnMap where
  sno : Nat
  uid : Nat
  bush : Nat
  group : Nat
  last_io_raised : Nat
  category : Nat
  stock_location : Nat
  min_lvl : Nat
  opn_bal : Nat
deriving DecidableEq

/-- Embeds `find_all_columns`: resolve the 9 logical columns in catalog
order, failing with the missing-column message at the first column no
header cell matches. The loop over the catalog is unrolled. -/
def find_all_columns (header_row : Row) : Except String ColumnMap :=
  match find_column_index header_row sno_terms with
  | none => Except.error (missingColumnMsg ("sno") sno_terms header_row)
  | some sno =>
  match find_column_index header_row uid_terms with
  | none => Except.error (missingColumnMsg ("uid") uid_terms header_row)
  | some uid =>
  match find_column_index header_row bush_terms with
  | none => Except.error (missingColumnMsg ("bush") bush_terms header_row)
  | some bush =>
  match find_column_index header_row group_terms with
  | none => Except.error (missingColumnMsg ("group") group_terms header_row)
  | some group =>
  match find_column_index header_row last_io_raised_terms with
  | none => Except.error (missingColumnMsg ("last_io_raised") last_io_raised_terms header_row)
  | some last_io_raised =>
  match find_column_index header_row category_terms with
  | none => Except.error (missingColumnMsg ("category") category_terms header_row)
  | some category =>
  match find_column_index header_row stock_location_terms with
  | none => Except.error (missingColumnMsg ("stock_location") stock_location_terms header_row)
  | some stock_location =>
  match find_column_index header_row min_lvl_terms with
  | none => Except.error (missingColumnMsg ("min_lvl") min_lvl_terms header_row)
  | some min_lvl =>
  match find_column_index header_row opn_bal_terms with
  | none => Except.error (missingColumnMsg ("opn_bal") opn_bal_terms header_row)
  | some opn_bal =>
  Except.ok ⟨sno, uid, bush, group, last_io_raised, category, stock_location, min_lvl, opn_bal⟩

/-- Exact scaled-decimal value of a parsed number: the rational
`man / 10 ^ scale`. -/
structure DecNum where
  man : Int
  scale : Nat
deriving DecidableEq

/-- The rational value of a scaled decimal. -/
def DecNum.toRat (a : DecNum) : Rat := (a.man : Rat) / (10 : Rat) ^ a.scale

/-- Strict order on scaled decimals by integer cross multiplication. -/
def decNumLt (a b : DecNum) : Bool :=
  decide (a.man * (10 : Int) ^ b.scale < b.man * (10 : Int) ^ a.scale)

/-- Value of a block of decimal digits. -/
def digitsVal (ds : List Char) : Nat :=
  ds.foldl (fun a c => 10 * a + (c.toNat - 48)) 0

/-- Build the scaled decimal for sign, integer part, fractional part and
fractional length. -/
def mkDecNum (neg : Bool) (ip fp flen : Nat) : DecNum :=
  let m : Int := Int.ofNat (ip * 10 ^ flen + fp)
  ⟨if neg then -m else m, flen⟩

/-- Parse an unsigned decimal literal: digits, optionally a point and
further digits, at least one digit in total, nothing else. -/
def pyFloatAux (neg : Bool) (rest : List Char) : Option DecNum :=
  let ip := rest.takeWhile Char.isDigit
  match rest.dropWhile Char.isDigit with
  | [] => if ip = [] then none else some (mkDecNum neg (digitsVal ip) 0 0)
  | c :: r3 =>
    if c = '.' then
      let fp := r3.takeWhile Char.isDigit
      match r3.dropWhile Char.isDigit with
      | [] =>
        if ip = [] ∧ fp = [] then none
        else some (mkDecNum neg (digitsVal ip) (digitsVal fp) fp.length)
      | _ :: _ => none
    else none

/-- Parse of `float(...)` on the modeled fragment: optional sign, then an
unsigned plain decimal literal; anything else fails. -/
def pyFloat : List Char → Option DecNum
  | [] => none
  | c :: t =>
    if c = '-' then pyFloatAux true t
    else if c = '+' then pyFloatAux false t
    else pyFloatAux false (c :: t)

/-- Python `str.replace` removing every comma. -/
def removeCommas (cs : List Char) : List Char := cs.filter (fun c => c != ',')

/-- Embeds `safe_float`: `None` and the empty string give no value;
otherwise remove commas, strip whitespace and parse, with parse failure
giving no value rather than an error. -/
def safe_float (value : Cell) : Option DecNum :=
  match value with
  | none => none
  | some s =>
    if s = "" then none
    else pyFloat (stripChars (removeCommas s.data))

/-- Embeds `get_cell` inside `extract_row_data`: the cell at the index
when the row reaches it, the empty string otherwise. -/
def get_cell (row : Row) (idx : Nat) : Cell :=
  if h : idx < row.length then row.get ⟨idx, h⟩ else emptyCell

/-- The 9 named fields `extract_row_data` reads from one row. -/
structure RowData where
  sno : Cell
  uid : Cell
  bush : Cell
  group : Cell
  last_io_raised : Cell
  category : Cell
  stock_location : Cell
  opn_bal : Cell
  min_lvl : Cell
deriving DecidableEq

/-- Embeds `extract_row_data`: read each of the 9 logical fields through
`get_cell`. -/
def extract_row_data (row : Row) (columns : ColumnMap) : RowData :=
  ⟨get_cell row columns.sno, get_cell row columns.uid, get_cell row columns.bush,
   get_cell row columns.group, get_cell row columns.last_io_raised,
   get_cell row columns.category, get_cell row columns.stock_location,
   get_cell row columns.opn_bal, get_cell row columns.min_lvl⟩

/-- One output record with only the 7 descriptive fields. -/
structure ReplenishmentItem where
  sno : Cell
  uid : Cell
  bush : Cell
  group : Cell
  last_io_raised : Cell
  category : Cell
  stock_location : Cell
deriving DecidableEq

/-- The blank-row test of the filter loop: the row is empty or every cell
is falsy. -/
def rowIsBlank (row : Row) : Bool := row.isEmpty || row.all cellFalsy

/-- One iteration of the filter loop of `filter_replenishment_items`:
skip blank rows, coerce the two numeric fields, skip rows where either
has no value, and keep the 7 descriptive fields when the opening balance
is strictly below the minimum level. -/
def rowToItem (columns : ColumnMap) (row : Row) : Option ReplenishmentItem :=
  if rowIsBlank row then none
  else
    let rd := extract_row_data row columns
    match safe_float rd.opn_bal, safe_float rd.min_lvl with
    | some ob, some ml =>
      if decNumLt ob ml then
        some ⟨rd.sno, rd.uid, rd.bush, rd.group, rd.last_io_raised,
              rd.category, rd.stock_location⟩
      else none
    | some _, none => none
    | none, _ => none

/-- Embeds `filter_replenishment_items`: run the loop body over the rows
strictly after the header row, in grid order. -/
def filter_replenishment_items (data : Grid) (header_row_idx : Nat) (columns : ColumnMap) : List ReplenishmentItem :=
  (data.drop (header_row_idx + 1)).filterMap (rowToItem columns)

/-- The fixed CSV header, equal to the 7 output field names. -/
def csv_headers : List String :=
  ["Sno.", "UID", "Bush", "Group", "Last I.O Raised", "Category", "Stock Location"]

/-- The record a CSV row carries for one item, in header order. -/
def itemRecord (it : ReplenishmentItem) : List Cell :=
  [it.sno, it.uid, it.bush, it.group, it.last_io_raised, it.category, it.stock_location]

/-- A written CSV file: name, header line, data records. -/
structure CsvArtifact where
  filename : String
  headerLine : List String
  records : List (List Cell)
deriving DecidableEq

/-- Embeds `save_to_csv`, with the file-system effect modeled as the
returned artifact: an empty item list writes nothing at all, otherwise
the file holds the header line and one record per item. -/
def save_to_csv (items : List ReplenishmentItem) (filename : String) : Option CsvArtifact :=
  if items.isEmpty then none
  else some ⟨filename, csv_headers, items.map itemRecord⟩

example : normalize_text (some ("  MIN   Lvl ")) = "min lvl" := by decide
example : find_column_index [some ("Sno"), some ("UID")] uid_terms = some 1 := by decide
example : safe_float (some ("1,234")) = some ⟨1234, 0⟩ := by decide
example : safe_float (some ("abc")) = none := by decide
example : safe_float (some ("12.5")) = some ⟨125, 1⟩ := by decide
example : safe_float (some ("-3")) = some ⟨-3, 0⟩ := by decide
example : decNumLt ⟨5, 0⟩ ⟨10, 0⟩ = true := by decide
example : isHeaderRow [some ("Sno"), some ("UID")] = true := by decide
example : find_header_row [[], [some ("x")], [some ("Sno"), some ("UID")]] 10
    = Except.ok (2, [some ("Sno"), some ("UID")]) := rfl

/-! ### Helper lemmas: substring containment -/

/-- Data of a concatenation is the concatenation of the data. -/
theorem string_data_append (a b : String) : (a ++ b).data = a.data ++ b.data := rfl

theorem listStartsWith_iff (needle : List Char) : ∀ hay : List Char,
    listStartsWith needle hay = true ↔ ∃ s, hay = needle ++ s := by
  induction needle with
  | nil => intro hay; simp [listStartsWith]
  | cons a as ih =>
    intro hay
    cases hay with
    | nil => simp [listStartsWith]
    | cons b bs =>
      simp only [listStartsWith, Bool.and_eq_true, beq_iff_eq, ih bs]
      constructor
      · rintro ⟨rfl, s, rfl⟩; exact ⟨s, rfl⟩
      · rintro ⟨s, h⟩
        injection h with h1 h2
        exact ⟨h1.symm, s, h2⟩

theorem subOccurs_iff (needle : List Char) : ∀ hay : List Char,
    subOccurs needle hay = true ↔ ∃ p s, hay = p ++ needle ++ s := by
  intro hay
  induction hay with
  | nil =>
    simp only [subOccurs, List.isEmpty_iff]
    constructor
    · rintro rfl; exact ⟨[], [], rfl⟩
    · rintro ⟨p, s, h⟩
      rcases List.append_eq_nil.mp h.symm with ⟨h1, h2⟩
      exact (List.append_eq_nil.mp h1).2
  | cons c t ih =>
    simp only [subOccurs, Bool.or_eq_true, listStartsWith_iff, ih]
    constructor
    · rintro (⟨s, h⟩ | ⟨p, s, h⟩)
      · exact ⟨[], s, by simp [h]⟩
      · exact ⟨c :: p, s, by simp [h]⟩
    · rintro ⟨p, s, h⟩
      cases p with
      | nil => exact Or.inl ⟨s, by simpa using h⟩
      | cons x xs =>
        injection h with h1 h2
        exact Or.inr ⟨xs, s, h2⟩

theorem strContains_iff (hay needle : String) :
    strContains hay needle = true ↔ ∃ p s, hay.data = p ++ needle.data ++ s :=
  subOccurs_iff needle.data hay.data

theorem strContains_self (s : String) : strContains s s = true :=
  (strContains_iff s s).mpr ⟨[], [], by simp⟩

theorem strContains_append_left (a b needle : String)
    (h : strContains a needle = true) : strContains (a ++ b) needle = true := by
  rcases (strContains_iff a needle).mp h with ⟨p, s, hp⟩
  exact (strContains_iff (a ++ b) needle).mpr
    ⟨p, s ++ b.data, by rw [string_data_append, hp]; simp⟩

theorem strContains_append_right (a b needle : String)
    (h : strContains b needle = true) : strContains (a ++ b) needle = true := by
  rcases (strContains_iff b needle).mp h with ⟨p, s, hp⟩
  exact (strContains_iff (a ++ b) needle).mpr
    ⟨a.data ++ p, s, by rw [string_data_append, hp]; simp⟩

theorem pyJoin_contains (sep : String) : ∀ (xs : List String) (t : String),
    t ∈ xs → strContains (pyJoin sep xs) t = true := by
  intro xs
  induction xs with
  | nil => intro t ht; cases ht
  | cons x ys ih =>
    intro t ht
    cases ys with
    | nil =>
      rcases List.mem_singleton.mp ht with rfl
      exact strContains_self t
    | cons y zs =>
      rcases List.mem_cons.mp ht with rfl | hmem
      · exact strContains_append_left _ _ _ (strContains_append_left _ _ _ (strContains_self t))
      · exact strContains_append_right _ _ _ (ih t hmem)

/-! ### Helper lemmas: scaled decimals and the filter loop body -/

theorem decNumLt_iff (a b : DecNum) :
    decNumLt a b = true ↔ a.toRat < b.toRat := by
  rw [decNumLt, decide_eq_true_eq, DecNum.toRat, DecNum.toRat,
    div_lt_div_iff₀ (by positivity) (by positivity)]
  constructor
  · intro h; exact_mod_cast h
  · intro h; exact_mod_cast h

theorem rowIsBlank_eq_false_iff (row : Row) :
    rowIsBlank row = false ↔ row ≠ [] ∧ ¬ (∀ c ∈ row, cellFalsy c = true) := by
  rw [rowIsBlank, Bool.or_eq_false_iff]
  constructor
  · rintro ⟨h1, h2⟩
    constructor
    · intro hnil; rw [hnil] at h1; simp [List.isEmpty] at h1
    · intro hall
      rw [List.all_eq_true.mpr hall] at h2
      cases h2
  · rintro ⟨h1, h2⟩
    constructor
    · cases row with
      | nil => exact absurd rfl h1
      | cons c cs => rfl
    · cases hall : List.all row cellFalsy with
      | false => rfl
      | true => exact absurd (List.all_eq_true.mp hall) h2

theorem rowToItem_eq_some_iff (columns : ColumnMap) (row : Row) (item : ReplenishmentItem) :
    rowToItem columns row = some item ↔
      rowIsBlank row = false ∧
      ∃ ob ml, safe_float (extract_row_data row columns).opn_bal = some ob ∧
        safe_float (extract_row_data row columns).min_lvl = some ml ∧
        decNumLt ob ml = true ∧
        item = ⟨(extract_row_data row columns).sno, (extract_row_data row columns).uid,
                (extract_row_data row columns).bush, (extract_row_data row columns).group,
                (extract_row_data row columns).last_io_raised,
                (extract_row_data row columns).category,
                (extract_row_data row columns).stock_location⟩ := by
  rw [rowToItem]
  cases hb : rowIsBlank row with
  | true => simp
  | false =>
    simp only [Bool.false_eq_true, if_false, eq_self_iff_true, true_and]
    cases hob : safe_float (extract_row_data row columns).opn_bal with
    | none => simp
    | some ob =>
      cases hml : safe_float (extract_row_data row columns).min_lvl with
      | none => simp
      | some ml =>
        dsimp only
        by_cases hlt : decNumLt ob ml = true
        · rw [if_pos hlt]
          simp only [Option.some.injEq]
          constructor
          · intro h; exact ⟨ob, ml, rfl, rfl, hlt, h.symm⟩
          · rintro ⟨ob', ml', hob', hml', hlt', rfl⟩; rfl
        · rw [if_neg hlt]
          constructor
          · intro h; cases h
          · rintro ⟨ob', ml', hob', hml', hlt', rfl⟩
            injection hob' with h1
            injection hml' with h2
            rw [← h1, ← h2] at hlt'
            exact absurd hlt' hlt

theorem rowToItem_isSome_iff (columns : ColumnMap) (row : Row) :
    (∃ item, rowToItem columns row = some item) ↔
      rowIsBlank row = false ∧
      ∃ ob ml, safe_float (extract_row_data row columns).opn_bal = some ob ∧
        safe_float (extract_row_data row columns).min_lvl = some ml ∧
        decNumLt ob ml = true := by
  constructor
  · rintro ⟨item, h⟩
    rcases (rowToItem_eq_some_iff columns row item).mp h with ⟨h1, ob, ml, h2, h3, h4, _⟩
    exact ⟨h1, ob, ml, h2, h3, h4⟩
  · rintro ⟨h1, ob, ml, h2, h3, h4⟩
    exact ⟨_, (rowToItem_eq_some_iff columns row _).mpr ⟨h1, ob, ml, h2, h3, h4, rfl⟩⟩

/-! ### Helper lemmas: column search and header scan -/

theorem find_column_index_eq_some_iff (hr : Row) (terms : List String) : ∀ idx : Nat,
    find_column_index hr terms = some idx ↔
      idx < hr.length ∧ cellMatches terms (hr.getD idx emptyCell) = true ∧
        ∀ j, j < idx → cellMatches terms (hr.getD j emptyCell) = false := by
  induction hr with
  | nil => intro idx; simp [find_column_index]
  | cons c rest ih =>
    intro idx
    by_cases hc : cellMatches terms c = true
    · rw [find_column_index, if_pos hc]
      cases idx with
      | zero =>
        simp only [Option.some.injEq, List.getD_cons_zero, List.length_cons]
        constructor
        · intro _
          exact ⟨Nat.succ_pos _, hc, fun j hj => absurd hj (Nat.not_lt_zero j)⟩
        · intro _; trivial
      | succ n =>
        simp only [Option.some.injEq, List.length_cons]
        constructor
        · intro h; cases h
        · rintro ⟨_, _, hall⟩
          have := hall 0 (Nat.succ_pos n)
          rw [List.getD_cons_zero] at this
          rw [this] at hc
          cases hc
    · rw [find_column_index, if_neg hc]
      cases idx with
      | zero =>
        simp only [Option.map_eq_some', List.getD_cons_zero]
        constructor
        · rintro ⟨i, _, h⟩; cases h
        · rintro ⟨_, hm, _⟩; exact absurd hm hc
      | succ n =>
        simp only [Option.map_eq_some', List.getD_cons_succ, List.length_cons,
          Nat.succ_lt_succ_iff]
        constructor
        · rintro ⟨i, hfind, hi⟩
          have hn : i = n := by omega
          subst hn
          rcases (ih i).mp hfind with ⟨h1, h2, h3⟩
          refine ⟨h1, h2, fun j hj => ?_⟩
          cases j with
          | zero =>
            rw [List.getD_cons_zero]
            exact Bool.not_eq_true _ ▸ (by simpa using hc)
          | succ m =>
            rw [List.getD_cons_succ]
            exact h3 m (by omega)
        · rintro ⟨h1, h2, h3⟩
          refine ⟨n, (ih n).mpr ⟨h1, h2, fun m hm => ?_⟩, rfl⟩
          have := h3 (m + 1) (by omega)
          rwa [List.getD_cons_succ] at this

theorem findHeaderRowAux_error_msg : ∀ (l : List Row) (k : Nat) (msg : String),
    findHeaderRowAux k l = Except.error msg → msg = headerNotFoundMsg := by
  intro l
  induction l with
  | nil =>
    intro k msg h
    rw [findHeaderRowAux] at h
    injection h with h1
    exact h1.symm
  | cons row rest ih =>
    intro k msg h
    rw [findHeaderRowAux] at h
    by_cases hr : isHeaderRow row = true
    · rw [if_pos hr] at h; cases h
    · rw [if_neg hr] at h; exact ih (k + 1) msg h

theorem findHeaderRowAux_spec : ∀ (l : List Row) (k : Nat),
    match findHeaderRowAux k l with
    | Except.ok p =>
        ∃ d, d < l.length ∧ p.1 = k + d ∧ l.getD d [] = p.2 ∧ isHeaderRow p.2 = true ∧
          ∀ j, j < d → isHeaderRow (l.getD j []) = false
    | Except.error msg =>
        msg = headerNotFoundMsg ∧ ∀ j, j < l.length → isHeaderRow (l.getD j []) = false := by
  intro l
  induction l with
  | nil =>
    intro k
    rw [findHeaderRowAux]
    exact ⟨rfl, fun j hj => absurd hj (Nat.not_lt_zero j)⟩
  | cons row rest ih =>
    intro k
    rw [findHeaderRowAux]
    by_cases hr : isHeaderRow row = true
    · rw [if_pos hr]
      exact ⟨0, Nat.succ_pos _, by omega, rfl, hr, fun j hj => absurd hj (Nat.not_lt_zero j)⟩
    · rw [if_neg hr]
      have hrf : isHeaderRow row = false := by simpa using hr
      have h := ih (k + 1)
      cases hres : findHeaderRowAux (k + 1) rest with
      | ok p =>
        rw [hres] at h
        rcases h with ⟨d, hd, hp1, hp2, hp3, hp4⟩
        refine ⟨d + 1, by simpa using Nat.succ_lt_succ hd, by omega,
          by rwa [List.getD_cons_succ], hp3, fun j hj => ?_⟩
        cases j with
        | zero => rw [List.getD_cons_zero]; exact hrf
        | succ m => rw [List.getD_cons_succ]; exact hp4 m (by omega)
      | error msg =>
        rw [hres] at h
        rcases h with ⟨hmsg, hall⟩
        refine ⟨hmsg, fun j hj => ?_⟩
        cases j with
        | zero => rw [List.getD_cons_zero]; exact hrf
        | succ m =>
          rw [List.getD_cons_succ]
          exact hall m (by simpa using Nat.lt_of_succ_lt_succ hj)

theorem getD_take_of_lt {α : Type} (l : List α) (d : α) (m j : Nat) (h : j < m) :
    (l.take m).getD j d = l.getD j d := by
  rw [List.getD_eq_getElem?_getD, List.getD_eq_getElem?_getD, List.getElem?_take, if_pos h]

/-! ### Helper lemmas: column resolution and error messages -/

theorem find_all_columns_cases (hr : Row) :
    match find_all_columns hr with
    | Except.ok m =>
        find_column_index hr sno_terms = some m.sno ∧
        find_column_index hr uid_terms = some m.uid ∧
        find_column_index hr bush_terms = some m.bush ∧
        find_column_index hr group_terms = some m.group ∧
        find_column_index hr last_io_raised_terms = some m.last_io_raised ∧
        find_column_index hr category_terms = some m.category ∧
        find_column_index hr stock_location_terms = some m.stock_location ∧
        find_column_index hr min_lvl_terms = some m.min_lvl ∧
        find_column_index hr opn_bal_terms = some m.opn_bal
    | Except.error msg =>
        ∃ name terms, (name, terms) ∈ column_definitions ∧
          find_column_index hr terms = none ∧ msg = missingColumnMsg name terms hr := by
  cases h1 : find_column_index hr sno_terms with
  | none =>
    have e : find_all_columns hr = Except.error (missingColumnMsg ("sno") sno_terms hr) := by
      rw [find_all_columns, h1]
    rw [e]
    exact ⟨"sno", sno_terms, by simp [column_definitions], h1, rfl⟩
  | some v1 =>
  cases h2 : find_column_index hr uid_terms with
  | none =>
    have e : find_all_columns hr = Except.error (missingColumnMsg ("uid") uid_terms hr) := by
      rw [find_all_columns, h1, h2]
    rw [e]
    exact ⟨"uid", uid_terms, by simp [column_definitions], h2, rfl⟩
  | some v2 =>
  cases h3 : find_column_index hr bush_terms with
  | none =>
    have e : find_all_columns hr = Except.error (missingColumnMsg ("bush") bush_terms hr) := by
      rw [find_all_columns, h1, h2, h3]
    rw [e]
    exact ⟨"bush", bush_terms, by simp [column_definitions], h3, rfl⟩
  | some v3 =>
  cases h4 : find_column_index hr group_terms with
  | none =>
    have e : find_all_columns hr = Except.error (missingColumnMsg ("group") group_terms hr) := by
      rw [find_all_columns, h1, h2, h3, h4]
    rw [e]
    exact ⟨"group", group_terms, by simp [column_definitions], h4, rfl⟩
  | some v4 =>
  cases h5 : find_column_index hr last_io_raised_terms with
  | none =>
    have e : find_all_columns hr
        = Except.error (missingColumnMsg ("last_io_raised") last_io_raised_terms hr) := by
      rw [find_all_columns, h1, h2, h3, h4, h5]
    rw [e]
    exact ⟨"last_io_raised", last_io_raised_terms, by simp [column_definitions], h5, rfl⟩
  | some v5 =>
  cases h6 : find_column_index hr category_terms with
  | none =>
    have e : find_all_columns hr = Except.error (missingColumnMsg ("category") category_terms hr) := by
      rw [find_all_columns, h1, h2, h3, h4, h5, h6]
    rw [e]
    exact ⟨"category", category_terms, by simp [column_definitions], h6, rfl⟩
  | some v6 =>
  cases h7 : find_column_index hr stock_location_terms with
  | none =>
    have e : find_all_columns hr
        = Except.error (missingColumnMsg ("stock_location") stock_location_terms hr) := by
      rw [find_all_columns, h1, h2, h3, h4, h5, h6, h7]
    rw [e]
    exact ⟨"stock_location", stock_location_terms, by simp [column_definitions], h7, rfl⟩
  | some v7 =>
  cases h8 : find_column_index hr min_lvl_terms with
  | none =>
    have e : find_all_columns hr = Except.error (missingColumnMsg ("min_lvl") min_lvl_terms hr) := by
      rw [find_all_columns, h1, h2, h3, h4, h5, h6, h7, h8]
    rw [e]
    exact ⟨"min_lvl", min_lvl_terms, by simp [column_definitions], h8, rfl⟩
  | some v8 =>
  cases h9 : find_column_index hr opn_bal_terms with
  | none =>
    have e : find_all_columns hr = Except.error (missingColumnMsg ("opn_bal") opn_bal_terms hr) := by
      rw [find_all_columns, h1, h2, h3, h4, h5, h6, h7, h8, h9]
    rw [e]
    exact ⟨"opn_bal", opn_bal_terms, by simp [column_definitions], h9, rfl⟩
  | some v9 =>
    have e : find_all_columns hr = Except.ok ⟨v1, v2, v3, v4, v5, v6, v7, v8, v9⟩ := by
      rw [find_all_columns, h1, h2, h3, h4, h5, h6, h7, h8, h9]
    rw [e]
    exact ⟨rfl, rfl, rfl, rfl, rfl, rfl, rfl, rfl, rfl⟩

theorem missingColumnMsg_contains_name (name : String) (terms : List String) (hr : Row) :
    strContains (missingColumnMsg name terms hr) name = true := by
  rw [missingColumnMsg]
  apply strContains_append_left
  apply strContains_append_left
  apply strContains_append_left
  apply strContains_append_left
  apply strContains_append_left
  apply strContains_append_right
  exact strContains_self name

theorem missingColumnMsg_contains_term (name : String) (terms : List String) (hr : Row)
    (t : String) (ht : t ∈ terms) :
    strContains (missingColumnMsg name terms hr) t = true := by
  rw [missingColumnMsg]
  apply strContains_append_left
  apply strContains_append_left
  apply strContains_append_right
  exact pyJoin_contains (", ") terms t ht

theorem missingColumnMsg_contains_header (name : String) (terms : List String) (hr : Row) :
    strContains (missingColumnMsg name terms hr) (pyStrList hr) = true := by
  rw [missingColumnMsg]
  apply strContains_append_right
  exact strContains_self (pyStrList hr)

theorem data_head_append (s t : String) (c : Char) (h : s.data.head? = some c) :
    (s ++ t).data.head? = some c := by
  rw [string_data_append]
  cases hs : s.data with
  | nil => rw [hs] at h; cases h
  | cons a l =>
    rw [hs] at h
    injection h with h1
    rw [List.cons_append, List.head?_cons, h1]

theorem missingColumnMsg_head (name : String) (terms : List String) (hr : Row) :
    (missingColumnMsg name terms hr).data.head? = some (Char.ofNat 82) := by
  rw [missingColumnMsg]
  apply data_head_append
  apply data_head_append
  apply data_head_append
  apply data_head_append
  apply data_head_append
  apply data_head_append
  apply data_head_append
  decide

theorem headerNotFoundMsg_ne_missingColumnMsg (name : String) (terms : List String) (hr : Row) :
    headerNotFoundMsg ≠ missingColumnMsg name terms hr := by
  intro h
  have h1 : headerNotFoundMsg.data.head? = some (Char.ofNat 67) := by decide
  rw [h, missingColumnMsg_head name terms hr] at h1
  injection h1 with h2
  exact absurd h2 (by decide)

/-! ### Helper lemmas: order preservation of the filter -/

theorem enumFrom_fst_le {α : Type} : ∀ (l : List α) (k : Nat) (p : Nat × α),
    p ∈ List.enumFrom k l → k ≤ p.1 := by
  intro l
  induction l with
  | nil => intro k p h; cases h
  | cons a t ih =>
    intro k p h
    rw [List.enumFrom_cons] at h
    rcases List.mem_cons.mp h with rfl | hmem
    · exact Nat.le_refl k
    · exact Nat.le_of_succ_le (ih (k + 1) p hmem)

theorem filterMap_drop_eq_enumFrom {α β : Type} (f : α → Option β) :
    ∀ (l : List α) (k n : Nat),
      (l.drop n).filterMap f
        = (List.enumFrom k l).filterMap (fun p => if k + n ≤ p.1 then f p.2 else none) := by
  intro l
  induction l with
  | nil => intro k n; simp
  | cons a t ih =>
    intro k n
    cases n with
    | zero =>
      rw [List.drop_zero, List.enumFrom_cons, List.filterMap_cons, List.filterMap_cons]
      dsimp only
      rw [if_pos (by omega : k + 0 ≤ k)]
      have base := ih (k + 1) 0
      rw [List.drop_zero] at base
      have ht : t.filterMap f
          = (List.enumFrom (k + 1) t).filterMap (fun p => if k + 0 ≤ p.1 then f p.2 else none) := by
        rw [base]
        apply List.filterMap_congr
        intro p hp
        have h1 : k + 1 ≤ p.1 := enumFrom_fst_le t (k + 1) p hp
        rw [if_pos (by omega), if_pos (by omega)]
      rw [← ht]
    | succ m =>
      rw [List.drop_succ_cons, List.enumFrom_cons, List.filterMap_cons]
      dsimp only
      rw [if_neg (by omega : ¬ k + (m + 1) ≤ k)]
      rw [ih (k + 1) m]
      apply List.filterMap_congr
      intro p hp
      by_cases hc : (k + 1) + m ≤ p.1
      · rw [if_pos hc, if_pos (by omega)]
      · rw [if_neg hc, if_neg (by omega)]

/-! ### Concrete example data used by witnesses -/

/-- A well-formed header row with the 9 columns in catalog order. -/
def exHeaderRow : Row :=
  [some ("Sno"), some ("UID"), some ("Bush"), some ("Group"), some ("Last I.O Raised"),
   some ("Category"), some ("Stock Location"), some ("Min Lvl"), some ("Opn Bal")]

/-- The column map matching `exHeaderRow`. -/
def exColumns : ColumnMap := ⟨0, 1, 2, 3, 4, 5, 6, 7, 8⟩

/-- A data row whose opening balance 5 is below its minimum level 10. -/
def exRowYes : Row :=
  [some ("1"), some ("A1"), some ("B"), some ("G"), some ("d"), some ("C"), some ("L"),
   some ("10"), some ("5")]

/-- A grid whose single data row qualifies for replenishment. -/
def exGridYes : Grid := [exHeaderRow, exRowYes]

/-- The item produced from `exRowYes`. -/
def exItem : ReplenishmentItem :=
  ⟨some ("1"), some ("A1"), some ("B"), some ("G"), some ("d"), some ("C"), some ("L")⟩

/-- A grid whose single data row does not qualify (balance 20 at or above
minimum 5). -/
def exGridNone : Grid :=
  [exHeaderRow,
   [some ("1"), some ("A1"), some ("B"), some ("G"), some ("d"), some ("C"), some ("L"),
    some ("5"), some ("20")]]

/-- A grid whose header sits at index 2, below an empty row and a title
row. -/
def exGrid3 : Grid := [[], [some ("Report")], exHeaderRow, [some ("1")]]

/-- A header row missing most of the 9 logical columns. -/
def exHeaderMissing : Row := [some ("Sno"), some ("UID")]

/-- A header row in which one physical cell carries the markers of both
the uid and the bush column. -/
def exHeaderShared : Row :=
  [some ("Sno"), some ("UID Bush"), some ("Group"), some ("Last I.O Raised"),
   some ("Category"), some ("Stock Location"), some ("Min Lvl"), some ("Opn Bal")]

/-- A raised Python exception: its class name together with its
message. -/
structure PyExn where
  exnClass : String
  message : String
deriving DecidableEq

/-- The exception `find_header_row` raises when no header is found: a
plain `ValueError` carrying `headerNotFoundMsg`. -/
def headerNotFoundExn : PyExn := ⟨"ValueError", headerNotFoundMsg⟩

/-- The exception `find_all_columns` raises for an unresolved column: a
plain `ValueError` carrying `missingColumnMsg`. -/
def missingColumnExn (col_name : String) (search_terms : List String) (header_row : Row) : PyExn :=
  ⟨"ValueError", missingColumnMsg col_name search_terms header_row⟩

/-- The exception the module-level configuration validation raises when
the spreadsheet id is unset — an unrelated failure raised with the same
exception class. -/
def configMissingSpreadsheetIdExn : PyExn :=
  ⟨"ValueError",
   "SPREADSHEET_ID environment variable is required. Please set it in .env file."⟩

/-! ### Claim theorems -/

/-- Claim C4: the Numeric Coercer returns no value when the input is
`None` or the empty string; otherwise it stringifies the input, removes
commas, strips whitespace, and attempts a floating-point parse, returning
no value rather than raising on failure; coercing `1,234` yields the
number 1234, and coercing `abc` yields no value. -/
theorem safe_float_coercion_spec :
    safe_float none = none ∧
    safe_float (some ("")) = none ∧
    (∀ s : String, safe_float (some s)
        = if s = "" then none else pyFloat (stripChars (removeCommas s.data))) ∧
    (safe_float (some ("1,234"))).map DecNum.toRat = some ((1234 : Rat)) ∧
    safe_float (some ("abc")) = none := by
  refine ⟨rfl, rfl, fun s => rfl, ?_, by decide⟩
  have h : safe_float (some ("1,234")) = some ⟨1234, 0⟩ := by decide
  rw [h, Option.map_some']
  norm_num [DecNum.toRat]

/-- Claim C7: the Row Extractor is total over ragged rows: each of the 9
logical fields reads the cell at its resolved index when the row reaches
it, and substitutes the empty string when the resolved index lies at or
beyond the row length. -/
theorem extract_row_data_total_spec (row : Row) (columns : ColumnMap) :
    extract_row_data row columns
      = ⟨get_cell row columns.sno, get_cell row columns.uid, get_cell row columns.bush,
         get_cell row columns.group, get_cell row columns.last_io_raised,
         get_cell row columns.category, get_cell row columns.stock_location,
         get_cell row columns.opn_bal, get_cell row columns.min_lvl⟩ ∧
    ∀ idx : Nat, get_cell row idx
        = if idx < row.length then row.getD idx emptyCell else emptyCell := by
  refine ⟨rfl, fun idx => ?_⟩
  by_cases h : idx < row.length
  · rw [if_pos h, get_cell, dif_pos h, List.getD_eq_getElem _ _ h]
    rfl
  · rw [if_neg h, get_cell, dif_neg h]

/-- Claim C9: with an empty selected set the CSV export step is a no-op,
writing no artifact at all — not even a header-only file — so a grid with
zero qualifying rows produces an empty output sequence and no export
artifact. -/
theorem save_to_csv_empty_noop_spec :
    (∀ filename : String, save_to_csv [] filename = none) ∧
    (∀ (data : Grid) (header_row_idx : Nat) (columns : ColumnMap) (filename : String),
      filter_replenishment_items data header_row_idx columns = [] →
        save_to_csv (filter_replenishment_items data header_row_idx columns) filename = none) := by
  constructor
  · intro filename; rfl
  · intro data header_row_idx columns filename h
    rw [h]; rfl

theorem save_to_csv_empty_noop_spec_witness :
    filter_replenishment_items exGridNone 0 exColumns = [] ∧
    save_to_csv (filter_replenishment_items exGridNone 0 exColumns) ("replenishment_items.csv") = none :=
  ⟨by decide,
   save_to_csv_empty_noop_spec.2 exGridNone 0 exColumns ("replenishment_items.csv") (by decide)⟩

/-- Claim C10: the resolved column map is not guaranteed injective: on
`exHeaderShared` the uid and bush columns both resolve to physical index
1, and the Column Resolver returns this map without any error — no
distinctness check happens after resolution. -/
theorem column_map_not_injective_example :
    ∃ m : ColumnMap, find_all_columns exHeaderShared = Except.ok m ∧ m.uid = m.bush :=
  ⟨⟨0, 1, 1, 2, 3, 4, 5, 6, 7⟩, rfl, rfl⟩

/-- Claim C2: the Column Resolver returns the lowest header-cell index
whose normalized cell equals some normalized term or contains it as a
substring; the outer iteration is over cells and the inner over terms, so
an earlier cell matching any listed term beats a later cell matching an
earlier-listed term, and only the first match is kept. -/
theorem find_column_index_first_cell_wins (header_row : Row) (search_terms : List String) :
    (∀ idx : Nat, find_column_index header_row search_terms = some idx ↔
        idx < header_row.length ∧
        cellMatches search_terms (header_row.getD idx emptyCell) = true ∧
        ∀ j, j < idx → cellMatches search_terms (header_row.getD j emptyCell) = false) ∧
    (∀ cell : Cell, cellMatches search_terms cell = true ↔
        ∃ term ∈ search_terms,
          normalize_text cell = normalize_term term ∨
          strContains (normalize_text cell) (normalize_term term) = true) := by
  constructor
  · exact find_column_index_eq_some_iff header_row search_terms
  · intro cell
    rw [cellMatches, List.any_eq_true]
    constructor <;> rintro ⟨term, hmem, hmatch⟩
    · rw [cellTermMatch, Bool.or_eq_true, beq_iff_eq] at hmatch
      exact ⟨term, hmem, hmatch⟩
    · refine ⟨term, hmem, ?_⟩
      rw [cellTermMatch, Bool.or_eq_true, beq_iff_eq]
      exact hmatch

theorem find_column_index_first_cell_wins_witness :
    find_column_index [some ("Minimum Level"), some ("Min Lvl")] min_lvl_terms = some 0 :=
  ((find_column_index_first_cell_wins [some ("Minimum Level"), some ("Min Lvl")] min_lvl_terms).1
      0).mpr
    ⟨by decide, by decide, fun j hj => absurd hj (Nat.not_lt_zero j)⟩

/-- Claim C3: within the first `min(max_rows_to_check, length)` rows, the
Header Locator returns the lowest index of a row whose lowercased joined
text contains `sno` and also `uid` or `item name`, together with that
row; when no row within the bound qualifies it fails with the not-found
message, which states the expected markers. -/
theorem find_header_row_first_match_spec (data : Grid) (max_rows_to_check : Nat) :
    match find_header_row data max_rows_to_check with
    | Except.ok p =>
        p.1 < min max_rows_to_check data.length ∧ data.getD p.1 [] = p.2 ∧
        isHeaderRow p.2 = true ∧
        ∀ j, j < p.1 → isHeaderRow (data.getD j []) = false
    | Except.error msg =>
        (∀ j, j < min max_rows_to_check data.length → isHeaderRow (data.getD j []) = false) ∧
        msg = headerNotFoundMsg ∧
        strContains msg ("Sno") = true ∧ strContains msg ("UID") = true := by
  have h := findHeaderRowAux_spec (data.take max_rows_to_check) 0
  have hlen : (data.take max_rows_to_check).length = min max_rows_to_check data.length :=
    List.length_take max_rows_to_check data
  rw [find_header_row]
  cases hres : findHeaderRowAux 0 (data.take max_rows_to_check) with
  | ok p =>
    rw [hres] at h
    rcases h with ⟨d, hd, hp1, hp2, hp3, hp4⟩
    have hpd : p.1 = d := by omega
    have hdmin : d < min max_rows_to_check data.length := hlen ▸ hd
    have hdm : d < max_rows_to_check := lt_of_lt_of_le hdmin (min_le_left _ _)
    refine ⟨hpd ▸ hdmin, ?_, hp3, ?_⟩
    · rw [hpd, ← getD_take_of_lt data [] max_rows_to_check d hdm]
      exact hp2
    · intro j hj
      rw [hpd] at hj
      have hjm : j < max_rows_to_check := by omega
      rw [← getD_take_of_lt data [] max_rows_to_check j hjm]
      exact hp4 j hj
  | error msg =>
    rw [hres] at h
    rcases h with ⟨hmsg, hall⟩
    refine ⟨?_, hmsg, by rw [hmsg]; decide, by rw [hmsg]; decide⟩
    intro j hj
    have hjm : j < max_rows_to_check := lt_of_lt_of_le hj (min_le_left _ _)
    have hjt : j < (data.take max_rows_to_check).length := hlen ▸ hj
    have := hall j hjt
    rwa [getD_take_of_lt data [] max_rows_to_check j hjm] at this

theorem find_header_row_first_match_spec_witness :
    (2 : Nat) < min 10 exGrid3.length ∧ exGrid3.getD 2 [] = exHeaderRow ∧
    isHeaderRow exHeaderRow = true ∧
    ∀ j, j < 2 → isHeaderRow (exGrid3.getD j []) = false :=
  find_header_row_first_match_spec exGrid3 10

/-- Claim C5: the Column Resolver returns a map only when all 9 logical
columns resolve, each field holding the actual search result with no
default substituted; when some logical column has no matching header
cell, it fails with the missing-column message naming that column, the
terms searched, and the full header row. -/
theorem find_all_columns_missing_column_spec (header_row : Row) :
    match find_all_columns header_row with
    | Except.ok m =>
        find_column_index header_row sno_terms = some m.sno ∧
        find_column_index header_row uid_terms = some m.uid ∧
        find_column_index header_row bush_terms = some m.bush ∧
        find_column_index header_row group_terms = some m.group ∧
        find_column_index header_row last_io_raised_terms = some m.last_io_raised ∧
        find_column_index header_row category_terms = some m.category ∧
        find_column_index header_row stock_location_terms = some m.stock_location ∧
        find_column_index header_row min_lvl_terms = some m.min_lvl ∧
        find_column_index header_row opn_bal_terms = some m.opn_bal
    | Except.error msg =>
        ∃ name terms, (name, terms) ∈ column_definitions ∧
          find_column_index header_row terms = none ∧
          msg = missingColumnMsg name terms header_row ∧
          strContains msg name = true ∧
          (∀ t ∈ terms, strContains msg t = true) ∧
          strContains msg (pyStrList header_row) = true := by
  have h := find_all_columns_cases header_row
  cases hres : find_all_columns header_row with
  | ok m => rw [hres] at h; exact h
  | error msg =>
    rw [hres] at h
    rcases h with ⟨name, terms, hmem, hnone, hmsg⟩
    subst hmsg
    exact ⟨name, terms, hmem, hnone, rfl, missingColumnMsg_contains_name name terms header_row,
      fun t ht => missingColumnMsg_contains_term name terms header_row t ht,
      missingColumnMsg_contains_header name terms header_row⟩

theorem find_all_columns_missing_column_spec_witness :
    ∃ name terms, (name, terms) ∈ column_definitions ∧
      find_column_index exHeaderMissing terms = none ∧
      missingColumnMsg ("bush") bush_terms exHeaderMissing = missingColumnMsg name terms exHeaderMissing ∧
      strContains (missingColumnMsg ("bush") bush_terms exHeaderMissing) name = true ∧
      (∀ t ∈ terms, strContains (missingColumnMsg ("bush") bush_terms exHeaderMissing) t = true) ∧
      strContains (missingColumnMsg ("bush") bush_terms exHeaderMissing) (pyStrList exHeaderMissing) = true :=
  find_all_columns_missing_column_spec exHeaderMissing

/-- Claim C8 as stated is refuted at concrete inputs: the two failures
are raised with one and the same generic exception class, `ValueError`,
which is also the class of the unrelated configuration failure, so at
the condition level a caller cannot tell them apart; and the not-found
message carries no row bound — it does not contain `10`, the decimal
rendering of the default bound, and it is the identical string at
bounds 10 and 3. -/
theorem error_conditions_generic_counterexample :
    headerNotFoundExn.exnClass
        = (missingColumnExn ("bush") bush_terms exHeaderMissing).exnClass ∧
    headerNotFoundExn.exnClass = configMissingSpreadsheetIdExn.exnClass ∧
    find_header_row [[some ("nothing")]] 10 = Except.error headerNotFoundExn.message ∧
    find_header_row [[some ("nothing")]] 3 = Except.error headerNotFoundExn.message ∧
    find_all_columns exHeaderMissing
        = Except.error (missingColumnExn ("bush") bush_terms exHeaderMissing).message ∧
    strContains headerNotFoundExn.message ("10") = false :=
  ⟨rfl, rfl, rfl, rfl, rfl, by decide⟩

/-- Claim C8, amended: both fatal failures are raised as the same
generic exception class (`ValueError`, shared with unrelated failures
such as the configuration validation), so they are distinguishable only
by message content, not by condition type; at the message level they
are never equal, the not-found message states the expected markers, and
the missing-column message carries the column name, every term
searched, and the rendered header row; no message states the row bound
— the not-found message is one fixed string, independent of the bound
and of the grid. -/
theorem error_conditions_distinguishable_spec :
    (∀ (data : Grid) (max_rows_to_check : Nat) (msg : String),
        find_header_row data max_rows_to_check = Except.error msg →
        msg = headerNotFoundMsg ∧
        strContains msg ("Sno") = true ∧ strContains msg ("UID") = true) ∧
    (∀ (header_row : Row) (msg : String),
        find_all_columns header_row = Except.error msg →
        ∃ name terms, (name, terms) ∈ column_definitions ∧
          find_column_index header_row terms = none ∧
          strContains msg name = true ∧ (∀ t ∈ terms, strContains msg t = true) ∧
          strContains msg (pyStrList header_row) = true) ∧
    (∀ (name : String) (terms : List String) (header_row : Row),
        headerNotFoundMsg ≠ missingColumnMsg name terms header_row) ∧
    (∀ (name : String) (terms : List String) (header_row : Row),
        (missingColumnExn name terms header_row).exnClass = headerNotFoundExn.exnClass) ∧
    headerNotFoundExn.exnClass = configMissingSpreadsheetIdExn.exnClass ∧
    strContains headerNotFoundMsg ("10") = false ∧
    (∀ (data1 data2 : Grid) (m1 m2 : Nat) (msg1 msg2 : String),
        find_header_row data1 m1 = Except.error msg1 →
        find_header_row data2 m2 = Except.error msg2 → msg1 = msg2) := by
  refine ⟨?_, ?_, headerNotFoundMsg_ne_missingColumnMsg,
    fun name terms header_row => rfl, rfl, by decide, ?_⟩
  · intro data max_rows_to_check msg h
    rw [find_header_row] at h
    have hm := findHeaderRowAux_error_msg (data.take max_rows_to_check) 0 msg h
    exact ⟨hm, by rw [hm]; decide, by rw [hm]; decide⟩
  · intro header_row msg h
    have hc := find_all_columns_cases header_row
    rw [h] at hc
    rcases hc with ⟨name, terms, hmem, hnone, hmsg⟩
    subst hmsg
    exact ⟨name, terms, hmem, hnone, missingColumnMsg_contains_name name terms header_row,
      fun t ht => missingColumnMsg_contains_term name terms header_row t ht,
      missingColumnMsg_contains_header name terms header_row⟩
  · intro data1 data2 m1 m2 msg1 msg2 h1 h2
    rw [find_header_row] at h1 h2
    rw [findHeaderRowAux_error_msg (data1.take m1) 0 msg1 h1,
      findHeaderRowAux_error_msg (data2.take m2) 0 msg2 h2]

theorem error_conditions_distinguishable_spec_witness :
    (headerNotFoundMsg = headerNotFoundMsg ∧
     strContains headerNotFoundMsg ("Sno") = true ∧
     strContains headerNotFoundMsg ("UID") = true) ∧
    headerNotFoundMsg = headerNotFoundMsg :=
  ⟨error_conditions_distinguishable_spec.1 [[some ("nothing")]] 10 headerNotFoundMsg rfl,
   error_conditions_distinguishable_spec.2.2.2.2.2.2 [[some ("nothing")]] [] 10 3
     headerNotFoundMsg headerNotFoundMsg rfl rfl⟩

/-- Claim C1: a data row at an index strictly after the header row
contributes an item to the filter output if and only if the row is not
empty, not all of its cells are falsy, both numeric cells coerce to
values, and the coerced opening balance is strictly below the coerced
minimum level; blank or unparseable rows are skipped silently, the
filter being a total function. -/
theorem filter_replenishment_row_contributes_iff (data : Grid) (header_row_idx : Nat)
    (columns : ColumnMap) (i : Nat) (h1 : header_row_idx < i) (h2 : i < data.length) :
    (∃ item, rowToItem columns (data.getD i []) = some item ∧
        item ∈ filter_replenishment_items data header_row_idx columns) ↔
      (data.getD i [] ≠ [] ∧
       ¬ (∀ c ∈ data.getD i [], cellFalsy c = true) ∧
       ∃ ob ml, safe_float ((extract_row_data (data.getD i []) columns).opn_bal) = some ob ∧
         safe_float ((extract_row_data (data.getD i []) columns).min_lvl) = some ml ∧
         ob.toRat < ml.toRat) := by
  have hmem : data.getD i [] ∈ data.drop (header_row_idx + 1) := by
    have hidx : (data.drop (header_row_idx + 1))[i - (header_row_idx + 1)]? = data[i]? := by
      rw [List.getElem?_drop]; congr 1; omega
    have hdata : data[i]? = some (data.getD i []) := by
      rw [List.getD_eq_getElem _ _ h2]
      exact List.getElem?_eq_getElem h2
    rcases List.getElem?_eq_some_iff.mp (hidx.trans hdata) with ⟨hlt, heq⟩
    exact heq ▸ List.getElem_mem hlt
  constructor
  · rintro ⟨item, hit, _⟩
    rcases (rowToItem_isSome_iff columns (data.getD i [])).mp ⟨item, hit⟩ with
      ⟨hb, ob, ml, hob, hml, hlt⟩
    rcases (rowIsBlank_eq_false_iff (data.getD i [])).mp hb with ⟨hne, hnf⟩
    exact ⟨hne, hnf, ob, ml, hob, hml, (decNumLt_iff ob ml).mp hlt⟩
  · rintro ⟨hne, hnf, ob, ml, hob, hml, hlt⟩
    have hb : rowIsBlank (data.getD i []) = false :=
      (rowIsBlank_eq_false_iff (data.getD i [])).mpr ⟨hne, hnf⟩
    rcases (rowToItem_isSome_iff columns (data.getD i [])).mpr
      ⟨hb, ob, ml, hob, hml, (decNumLt_iff ob ml).mpr hlt⟩ with ⟨item, hit⟩
    refine ⟨item, hit, ?_⟩
    rw [filter_replenishment_items]
    exact List.mem_filterMap.mpr ⟨data.getD i [], hmem, hit⟩

theorem filter_replenishment_row_contributes_iff_witness :
    (∃ item, rowToItem exColumns (exGridYes.getD 1 []) = some item ∧
        item ∈ filter_replenishment_items exGridYes 0 exColumns) ↔
      (exGridYes.getD 1 [] ≠ [] ∧
       ¬ (∀ c ∈ exGridYes.getD 1 [], cellFalsy c = true) ∧
       ∃ ob ml, safe_float ((extract_row_data (exGridYes.getD 1 []) exColumns).opn_bal) = some ob ∧
         safe_float ((extract_row_data (exGridYes.getD 1 []) exColumns).min_lvl) = some ml ∧
         ob.toRat < ml.toRat) :=
  filter_replenishment_row_contributes_iff exGridYes 0 exColumns 1 (by decide) (by decide)

/-- Claim C6: the filter output lists the items of qualifying rows in
ascending grid-row order, and every output item carries exactly the 7
descriptive fields of its row, the two numeric decision fields being
absent from the record. -/
theorem filter_output_order_and_fields (data : Grid) (header_row_idx : Nat) (columns : ColumnMap) :
    filter_replenishment_items data header_row_idx columns
      = data.enum.filterMap
          (fun p => if header_row_idx < p.1 then rowToItem columns p.2 else none) ∧
    ∀ (row : Row) (item : ReplenishmentItem), rowToItem columns row = some item →
      item = ⟨get_cell row columns.sno, get_cell row columns.uid, get_cell row columns.bush,
              get_cell row columns.group, get_cell row columns.last_io_raised,
              get_cell row columns.category, get_cell row columns.stock_location⟩ := by
  constructor
  · rw [filter_replenishment_items,
      filterMap_drop_eq_enumFrom (rowToItem columns) data 0 (header_row_idx + 1),
      List.enum_eq_enumFrom]
    apply List.filterMap_congr
    intro p hp
    by_cases hc : header_row_idx < p.1
    · rw [if_pos (by omega : 0 + (header_row_idx + 1) ≤ p.1), if_pos hc]
    · rw [if_neg (by omega : ¬ 0 + (header_row_idx + 1) ≤ p.1), if_neg hc]
  · intro row item h
    rcases (rowToItem_eq_some_iff columns row item).mp h with ⟨_, ob, ml, _, _, _, heq⟩
    rw [heq]
    rfl

theorem filter_output_order_and_fields_witness :
    exItem = ⟨get_cell exRowYes exColumns.sno, get_cell exRowYes exColumns.uid,
              get_cell exRowYes exColumns.bush, get_cell exRowYes exColumns.group,
              get_cell exRowYes exColumns.last_io_raised, get_cell exRowYes exColumns.category,
              get_cell exRowYes exColumns.stock_location⟩ :=
  (filter_output_order_and_fields exGridYes 0 exColumns).2 exRowYes exItem (by decide)
